import Mathlib

/-!
# Pick&place data generation of a board

A shallow embedding of `BoardPickPlaceGenerator::generate`
(`libs/librepcb/core/project/board/boardpickplacegenerator.cpp`) together with
the properties of the generated record collection.

The collaborator objects (`Board`, `BI_Device`, `BI_FootprintPad`, ...) are
immutable snapshots: each field holds the value that the corresponding getter
returns during one call of `generate`.
-/

namespace librepcb

/-! ## Data model -/

/-- Modelled from the spec: the geometry primitive `Angle`, whose declaration is
not part of the sources at hand. An angle is a signed integer number of
microdegrees; unary minus is integer negation. -/
abbrev Angle := Int

/-- Modelled from the spec: the geometry primitive `Point` (a 2D coordinate in
board space), whose declaration is not part of the sources at hand. The
generator only copies points. -/
structure Point where
  x : Int
  y : Int
  deriving DecidableEq, Repr

/-- Modelled from the spec: `Package::AssemblyType`, the classification of how a
package is mounted (Tht/Smt/Mixed/Other/Unmountable). Only the four members
`Tht`, `Smt`, `Mixed`, `Other` are named in `generate`. -/
inductive Package.AssemblyType where
  | Tht
  | Smt
  | Mixed
  | Other
  | Unmountable
  deriving DecidableEq, Repr

/-- The enumeration `PickPlaceDataItem::BoardSide`. -/
inductive PickPlaceDataItem.BoardSide where
  | Top
  | Bottom
  deriving DecidableEq, Repr

/-- The enumeration `PickPlaceDataItem::Type` (the kind of a record). -/
inductive PickPlaceDataItem.ItemType where
  | Tht
  | Smt
  | Mixed
  | Fiducial
  | Other
  deriving DecidableEq, Repr

/-- One placement record, with the fields in the order of the constructor call
`PickPlaceDataItem(designator, val, devName, pkgName, position, rotation,
side, type)`. -/
structure PickPlaceDataItem where
  designator : String
  value : String
  deviceName : String
  packageName : String
  position : Point
  rotation : Angle
  boardSide : PickPlaceDataItem.BoardSide
  type : PickPlaceDataItem.ItemType
  deriving DecidableEq, Repr

/-- The setter `PickPlaceDataItem::setDesignator`. -/
def PickPlaceDataItem.setDesignator (item : PickPlaceDataItem) (value : String) :
    PickPlaceDataItem :=
  { item with designator := value }

/-- The data set `PickPlaceData`: project name, project version, board name and
the ordered record collection. -/
structure PickPlaceData where
  projectName : String
  projectVersion : String
  boardName : String
  items : List PickPlaceDataItem
  deriving DecidableEq, Repr

/-- The method `PickPlaceData::addItem` appends one record. -/
def PickPlaceData.addItem (data : PickPlaceData) (item : PickPlaceDataItem) :
    PickPlaceData :=
  { data with items := data.items ++ [item] }

/-- A footprint pad of a device on the board, as read by `generate`. -/
structure BI_FootprintPad where
  /-- The flag `getLibPad().getFunctionIsFiducial()`. -/
  functionIsFiducial : Bool
  /-- The test `isOnLayer(Layer::topCopper())`. -/
  isOnTopCopper : Bool
  /-- The test `isOnLayer(Layer::botCopper())`. -/
  isOnBotCopper : Bool
  /-- The getter `getMirrored()` of the pad. -/
  mirrored : Bool
  /-- The getter `getRotation()` of the pad. -/
  rotation : Angle
  /-- The getter `getPosition()` of the pad. -/
  position : Point
  deriving DecidableEq, Repr

/-- A device instance on the board, as read by `generate`. -/
structure BI_Device where
  /-- The component name `*getComponentInstance().getName()`. -/
  componentName : String
  /-- The text `getComponentInstance().getValue(true).trimmed()`. -/
  componentValueTrimmed : String
  /-- The lookup `*getLibDevice().getNames().value(locale)`. -/
  libDeviceName : List String → String
  /-- The lookup `*getLibPackage().getNames().value(locale)`. -/
  libPackageName : List String → String
  /-- The classification `getLibPackage().getAssemblyType(true)`. -/
  assemblyType : Package.AssemblyType
  /-- The pads `getPads()`, in iteration order. -/
  pads : List BI_FootprintPad
  /-- The getter `getPosition()` of the device. -/
  position : Point
  /-- The getter `getRotation()` of the device. -/
  rotation : Angle
  /-- The getter `getMirrored()` of the device. -/
  mirrored : Bool

/-- The project data read by `generate`. -/
structure Project where
  name : String
  version : String
  localeOrder : List String

/-- The board read by `generate`. -/
structure Board where
  project : Project
  name : String
  /-- The devices `getDeviceInstances()`, in iteration order. -/
  deviceInstances : List BI_Device

namespace BoardPickPlaceGenerator

open PickPlaceDataItem (BoardSide ItemType)

/-! ## The generator -/

/-- The static map `types` of `generate`, with `QMap::find` returning `none`
for a key that is absent (`typeIt == types.end()`). -/
def types : Package.AssemblyType → Option ItemType
  | .Tht => some .Tht
  | .Smt => some .Smt
  | .Mixed => some .Mixed
  | .Other => some .Other
  | _ => none

/-- The local vector `sides` built for one fiducial pad (source lines 80-86). -/
def padSides (pad : BI_FootprintPad) : List BoardSide :=
  let sides : List BoardSide := []
  let sides := if pad.isOnTopCopper then sides ++ [BoardSide.Top] else sides
  let sides := if pad.isOnBotCopper then sides ++ [BoardSide.Bottom] else sides
  sides

/-- The local `rotation` computed for one fiducial pad (source lines 87-88). -/
def padRotation (pad : BI_FootprintPad) : Angle :=
  if pad.mirrored then -pad.rotation else pad.rotation

/-- The body of the loop over the pads of a device (source lines 79-94): the
working list `items` after the pad has been handled. -/
def padStep (designator val devName pkgName : String)
    (items : List PickPlaceDataItem) (pad : BI_FootprintPad) : List PickPlaceDataItem :=
  if pad.functionIsFiducial then
    let rotation := padRotation pad
    (padSides pad).foldl
      (fun items side =>
        items ++ [PickPlaceDataItem.mk designator val devName pkgName
          pad.position rotation side ItemType.Fiducial])
      items
  else
    items

/-- The records that the loop body `padStep` appends for one pad. -/
def padItems (designator val devName pkgName : String) (pad : BI_FootprintPad) :
    List PickPlaceDataItem :=
  padStep designator val devName pkgName [] pad

/-- The renaming loop `for (int i = 0; i < items.count(); ++i)` (source lines
99-102), started at index `i` on the items from index `i` on: item `i` gets the
designator `getDesignator() % ":" % QString::number(i + 1)`. The index is below
`items.count()`, so `i + 1` does not leave the range of `int`. -/
def renameFrom : Nat → List PickPlaceDataItem → List PickPlaceDataItem
  | _, [] => []
  | i, item :: rest =>
    item.setDesignator (item.designator ++ ":" ++ toString (i + 1)) :: renameFrom (i + 1) rest

/-- The disambiguation step (source lines 97-103). -/
def ensureUniqueDesignators (items : List PickPlaceDataItem) : List PickPlaceDataItem :=
  if items.length > 1 then renameFrom 0 items else items

/-- The main record of a device whose assembly type maps to `type` (source
lines 108-115). -/
def mainItem (locale : List String) (device : BI_Device) (type : ItemType) :
    PickPlaceDataItem :=
  let position := device.position
  let rotation := if device.mirrored then -device.rotation else device.rotation
  let boardSide := if device.mirrored then BoardSide.Bottom else BoardSide.Top
  PickPlaceDataItem.mk device.componentName device.componentValueTrimmed
    (device.libDeviceName locale) (device.libPackageName locale)
    position rotation boardSide type

/-- The working list `items` of one device after the loop over its pads
(source lines 77-95), before disambiguation. -/
def fiducialItems (locale : List String) (device : BI_Device) : List PickPlaceDataItem :=
  device.pads.foldl
    (padStep device.componentName device.componentValueTrimmed
      (device.libDeviceName locale) (device.libPackageName locale)) []

/-- The working list `items` of one device when it is committed (source lines
71-116): fiducial extraction, disambiguation, main record. -/
def deviceItems (locale : List String) (device : BI_Device) : List PickPlaceDataItem :=
  let items := fiducialItems locale device
  let items := ensureUniqueDesignators items
  match types device.assemblyType with
  | some type => items ++ [mainItem locale device type]
  | none => items

/-- The body of the loop over the devices (source lines 70-122): the data set
after the records of the device have been added. -/
def deviceStep (locale : List String) (data : PickPlaceData) (device : BI_Device) :
    PickPlaceData :=
  (deviceItems locale device).foldl PickPlaceData.addItem data

/-- The method `BoardPickPlaceGenerator::generate`. -/
def generate (board : Board) : PickPlaceData :=
  let data : PickPlaceData :=
    { projectName := board.project.name
      projectVersion := board.project.version
      boardName := board.name
      items := [] }
  let locale := board.project.localeOrder
  board.deviceInstances.foldl (deviceStep locale) data

/-! ## Notions used to state the properties -/

/-- The fiducial records among the records committed for a device. -/
def fiducialRecords (locale : List String) (device : BI_Device) : List PickPlaceDataItem :=
  (deviceItems locale device).filter (fun item => item.type == ItemType.Fiducial)

/-- The main records among the records committed for a device: those whose kind
is not `Fiducial`. -/
def mainRecords (locale : List String) (device : BI_Device) : List PickPlaceDataItem :=
  (deviceItems locale device).filter (fun item => item.type != ItemType.Fiducial)

/-- The designators of the records of a data set, in record order. -/
def designators (data : PickPlaceData) : List String :=
  data.items.map (fun item => item.designator)

/-! ## Decimal numerals -/

/-- The value of a decimal digit character. -/
def digitValue (c : Char) : Nat := c.toNat - 48

/-- The number that a list of decimal digit characters denotes. -/
def decimalValue (cs : List Char) : Nat :=
  cs.foldl (fun acc c => 10 * acc + digitValue c) 0

/-! ## Sample inputs -/

/-- A fiducial pad on the top copper layer only, not mirrored. -/
def padTop : BI_FootprintPad :=
  { functionIsFiducial := true, isOnTopCopper := true, isOnBotCopper := false,
    mirrored := false, rotation := 90000000, position := ⟨1000000, 2000000⟩ }

/-- A fiducial pad on the bottom copper layer only, mirrored. -/
def padBottom : BI_FootprintPad :=
  { functionIsFiducial := true, isOnTopCopper := false, isOnBotCopper := true,
    mirrored := true, rotation := 45000000, position := ⟨3000000, 4000000⟩ }

/-- A fiducial pad on both copper layers, not mirrored. -/
def padBoth : BI_FootprintPad :=
  { functionIsFiducial := true, isOnTopCopper := true, isOnBotCopper := true,
    mirrored := false, rotation := 30000000, position := ⟨5000000, 6000000⟩ }

/-- A pad on both copper layers that is not a fiducial. -/
def padPlain : BI_FootprintPad :=
  { functionIsFiducial := false, isOnTopCopper := true, isOnBotCopper := true,
    mirrored := false, rotation := 0, position := ⟨7000000, 8000000⟩ }

/-- A non-mirrored surface-mount device without pads. -/
def deviceR1 : BI_Device :=
  { componentName := "R1", componentValueTrimmed := "10k",
    libDeviceName := fun _ => "Resistor 0603", libPackageName := fun _ => "R-0603",
    assemblyType := Package.AssemblyType.Smt, pads := [],
    position := ⟨10000000, 20000000⟩, rotation := 90000000, mirrored := false }

/-- A mirrored through-hole device with two fiducial pads on the bottom copper
layer and one pad that is not a fiducial. -/
def deviceX : BI_Device :=
  { componentName := "X", componentValueTrimmed := "",
    libDeviceName := fun _ => "Connector", libPackageName := fun _ => "HDR-2",
    assemblyType := Package.AssemblyType.Tht, pads := [padBottom, padPlain, padBottom],
    position := ⟨-5000000, 0⟩, rotation := 30000000, mirrored := true }

/-- A non-mirrored surface-mount device with one fiducial pad on the top
copper layer. -/
def deviceF1 : BI_Device :=
  { componentName := "F1", componentValueTrimmed := "",
    libDeviceName := fun _ => "Marker", libPackageName := fun _ => "MARK",
    assemblyType := Package.AssemblyType.Smt, pads := [padTop],
    position := ⟨0, 0⟩, rotation := 0, mirrored := false }

/-- A non-mirrored unmountable device whose only pad is a mirrored fiducial on
the bottom copper layer. -/
def deviceF2 : BI_Device :=
  { componentName := "F2", componentValueTrimmed := "",
    libDeviceName := fun _ => "Marker", libPackageName := fun _ => "MARK",
    assemblyType := Package.AssemblyType.Unmountable, pads := [padBottom],
    position := ⟨0, 0⟩, rotation := 0, mirrored := false }

/-- A non-mirrored unmountable device whose only pad is a fiducial on both
copper layers. -/
def deviceF3 : BI_Device :=
  { componentName := "F3", componentValueTrimmed := "",
    libDeviceName := fun _ => "Marker", libPackageName := fun _ => "MARK",
    assemblyType := Package.AssemblyType.Unmountable, pads := [padBoth],
    position := ⟨0, 0⟩, rotation := 0, mirrored := false }

/-- A project header for the sample boards. -/
def sampleProject : Project :=
  { name := "Demo", version := "v1", localeOrder := ["en_US"] }

/-- A board holding the single device `deviceF1`. -/
def boardF1 : Board :=
  { project := sampleProject, name := "default", deviceInstances := [deviceF1] }

/-- A board holding the single device `deviceX`. -/
def boardX : Board :=
  { project := sampleProject, name := "default", deviceInstances := [deviceX] }

/-- A pad flagged as fiducial that is on neither copper layer. -/
def padNoCopper : BI_FootprintPad :=
  { functionIsFiducial := true, isOnTopCopper := false, isOnBotCopper := false,
    mirrored := false, rotation := 0, position := ⟨9000000, 9000000⟩ }

/-- A non-mirrored surface-mount device with two pads, neither a fiducial. -/
def deviceR2 : BI_Device :=
  { componentName := "R2", componentValueTrimmed := "4k7",
    libDeviceName := fun _ => "Resistor 0603", libPackageName := fun _ => "R-0603",
    assemblyType := Package.AssemblyType.Smt, pads := [padPlain, padPlain],
    position := ⟨11000000, 21000000⟩, rotation := 180000000, mirrored := false }

/-- An unmountable device with a pad that is not a fiducial and a fiducial pad
that is on neither copper layer. -/
def deviceU1 : BI_Device :=
  { componentName := "U1", componentValueTrimmed := "",
    libDeviceName := fun _ => "Logo", libPackageName := fun _ => "LOGO",
    assemblyType := Package.AssemblyType.Unmountable, pads := [padPlain, padNoCopper],
    position := ⟨0, 0⟩, rotation := 0, mirrored := false }

/-- A board holding the single device `deviceR2`. -/
def boardR2 : Board :=
  { project := sampleProject, name := "default", deviceInstances := [deviceR2] }

/-- A board holding the single device `deviceU1`. -/
def boardU1 : Board :=
  { project := sampleProject, name := "default", deviceInstances := [deviceU1] }

/-- A board holding a device with a mix of fiducial and other pads, and more
devices. -/
def boardMixed : Board :=
  { project := sampleProject, name := "default",
    deviceInstances := [deviceX, deviceR2, deviceU1, deviceF3] }

/-- The device with every pad that is not a fiducial removed. -/
def withoutPlainPads (device : BI_Device) : BI_Device :=
  { device with pads := device.pads.filter (fun pad => pad.functionIsFiducial) }

/-- The board with every pad that is not a fiducial removed from every device. -/
def boardWithoutPlainPads (board : Board) : Board :=
  { board with deviceInstances := board.deviceInstances.map withoutPlainPads }

/-! ## Structure of the working list -/

/-- Appending one built element per entry is appending the mapped list. -/
theorem foldl_append_singleton {α β : Type} (f : α → β) (l : List α) (init : List β) :
    l.foldl (fun acc a => acc ++ [f a]) init = init ++ l.map f := by
  induction l generalizing init with
  | nil => simp
  | cons a l ih => simp [ih]

/-- The records of one pad, in closed form. -/
theorem padItems_eq (g v dn pn : String) (pad : BI_FootprintPad) :
    padItems g v dn pn pad =
      if pad.functionIsFiducial then
        (padSides pad).map (fun side =>
          PickPlaceDataItem.mk g v dn pn pad.position (padRotation pad) side ItemType.Fiducial)
      else [] := by
  unfold padItems padStep
  split
  · simp only [foldl_append_singleton, List.nil_append]
  · rfl

/-- The loop body appends the records of the pad to the working list. -/
theorem padStep_eq (g v dn pn : String) (items : List PickPlaceDataItem)
    (pad : BI_FootprintPad) :
    padStep g v dn pn items pad = items ++ padItems g v dn pn pad := by
  rw [padItems_eq]
  unfold padStep
  split
  · simp only [foldl_append_singleton]
  · simp

/-- The loop over pads appends the records of all pads, in pad order. -/
theorem foldl_padStep (g v dn pn : String) (pads : List BI_FootprintPad)
    (init : List PickPlaceDataItem) :
    pads.foldl (padStep g v dn pn) init = init ++ pads.flatMap (padItems g v dn pn) := by
  induction pads generalizing init with
  | nil => simp
  | cons pad pads ih => simp [ih, padStep_eq, List.append_assoc]

/-- The fiducial working list is the concatenation of the records of the pads. -/
theorem fiducialItems_eq (locale : List String) (d : BI_Device) :
    fiducialItems locale d =
      d.pads.flatMap (padItems d.componentName d.componentValueTrimmed
        (d.libDeviceName locale) (d.libPackageName locale)) := by
  unfold fiducialItems
  rw [foldl_padStep, List.nil_append]

/-- Every record of a pad has kind `Fiducial` and the plain designator. -/
theorem mem_padItems {g v dn pn : String} {pad : BI_FootprintPad} {x : PickPlaceDataItem}
    (hx : x ∈ padItems g v dn pn pad) :
    x.type = ItemType.Fiducial ∧ x.designator = g := by
  rw [padItems_eq] at hx
  split at hx
  · obtain ⟨side, -, rfl⟩ := List.mem_map.mp hx
    exact ⟨rfl, rfl⟩
  · simp at hx

/-- Every record of the fiducial working list has kind `Fiducial` and the
plain designator. -/
theorem mem_fiducialItems {locale : List String} {d : BI_Device} {x : PickPlaceDataItem}
    (hx : x ∈ fiducialItems locale d) :
    x.type = ItemType.Fiducial ∧ x.designator = d.componentName := by
  rw [fiducialItems_eq] at hx
  obtain ⟨pad, -, hpad⟩ := List.mem_flatMap.mp hx
  exact mem_padItems hpad

/-- Renaming keeps the number of records. -/
theorem length_renameFrom (i : Nat) (l : List PickPlaceDataItem) :
    (renameFrom i l).length = l.length := by
  induction l generalizing i with
  | nil => rfl
  | cons a l ih => simp [renameFrom, ih]

/-- Renaming distributes over concatenation, the index running on. -/
theorem renameFrom_append (i : Nat) (l₁ l₂ : List PickPlaceDataItem) :
    renameFrom i (l₁ ++ l₂) = renameFrom i l₁ ++ renameFrom (i + l₁.length) l₂ := by
  induction l₁ generalizing i with
  | nil => simp [renameFrom]
  | cons a l ih =>
    have hidx : i + (l.length + 1) = i + 1 + l.length := by omega
    rw [List.cons_append, renameFrom, ih, List.length_cons, hidx]
    rfl

/-- Renaming leaves unchanged whatever does not read the designator. -/
theorem map_renameFrom {β : Type} (f : PickPlaceDataItem → β)
    (hf : ∀ x s, f (x.setDesignator s) = f x) (i : Nat) (l : List PickPlaceDataItem) :
    (renameFrom i l).map f = l.map f := by
  induction l generalizing i with
  | nil => rfl
  | cons a l ih => simp [renameFrom, ih, hf]

/-- The designators after renaming records that all carry the designator `g`:
the indices `i + 1`, `i + 2`, ... are appended, in list order. -/
theorem designator_renameFrom (g : String) (i : Nat) (l : List PickPlaceDataItem)
    (hl : ∀ x ∈ l, x.designator = g) :
    (renameFrom i l).map (fun x => x.designator) =
      (List.range' (i + 1) l.length).map (fun k => g ++ ":" ++ toString k) := by
  induction l generalizing i with
  | nil => rfl
  | cons a l ih =>
    have ha : a.designator = g := hl a (List.mem_cons_self _ _)
    have hl2 : ∀ x ∈ l, x.designator = g := fun x hx => hl x (List.mem_cons_of_mem _ hx)
    simp only [renameFrom, List.map_cons, List.length_cons, List.range', ih (i + 1) hl2,
      PickPlaceDataItem.setDesignator, ha]

/-- Disambiguation leaves unchanged whatever does not read the designator. -/
theorem map_ensureUniqueDesignators {β : Type} (f : PickPlaceDataItem → β)
    (hf : ∀ x s, f (x.setDesignator s) = f x) (l : List PickPlaceDataItem) :
    (ensureUniqueDesignators l).map f = l.map f := by
  unfold ensureUniqueDesignators
  split
  · exact map_renameFrom f hf 0 l
  · rfl

/-- Disambiguation keeps the number of records. -/
theorem length_ensureUniqueDesignators (l : List PickPlaceDataItem) :
    (ensureUniqueDesignators l).length = l.length := by
  unfold ensureUniqueDesignators
  split
  · exact length_renameFrom 0 l
  · rfl

/-- After disambiguation every record still has the kind it had. -/
theorem type_of_mem_ensureUniqueDesignators {l : List PickPlaceDataItem} {t : ItemType}
    (hl : ∀ x ∈ l, x.type = t) {x : PickPlaceDataItem}
    (hx : x ∈ ensureUniqueDesignators l) : x.type = t := by
  have hmap := map_ensureUniqueDesignators (fun y => y.type) (fun _ _ => rfl) l
  have hmem : x.type ∈ (ensureUniqueDesignators l).map (fun y => y.type) :=
    List.mem_map_of_mem _ hx
  rw [hmap] at hmem
  obtain ⟨y, hy, hyx⟩ := List.mem_map.mp hmem
  rw [← hyx]
  exact hl y hy

/-- The map `types` never yields the kind `Fiducial`. -/
theorem types_ne_fiducial {a : Package.AssemblyType} {t : ItemType}
    (h : types a = some t) : t ≠ ItemType.Fiducial := by
  cases a <;> simp [types] at h <;> subst h <;> decide

/-- The list of main records appended for a device: one record when the
assembly type is in the map, none otherwise. -/
theorem deviceItems_eq (locale : List String) (d : BI_Device) :
    deviceItems locale d =
      ensureUniqueDesignators (fiducialItems locale d) ++
        (match types d.assemblyType with
          | some t => [mainItem locale d t]
          | none => []) := by
  unfold deviceItems
  cases types d.assemblyType <;> simp

/-- The fiducial records of a device are its disambiguated fiducial working list. -/
theorem fiducialRecords_eq (locale : List String) (d : BI_Device) :
    fiducialRecords locale d = ensureUniqueDesignators (fiducialItems locale d) := by
  unfold fiducialRecords
  rw [deviceItems_eq, List.filter_append]
  have h1 : (ensureUniqueDesignators (fiducialItems locale d)).filter
      (fun item => item.type == ItemType.Fiducial)
      = ensureUniqueDesignators (fiducialItems locale d) := by
    apply List.filter_eq_self.mpr
    intro x hx
    have := type_of_mem_ensureUniqueDesignators
      (fun y hy => (mem_fiducialItems hy).1) hx
    simp [this]
  rw [h1]
  cases h : types d.assemblyType with
  | none => simp
  | some t =>
    have := types_ne_fiducial h
    simp [mainItem, this]

/-- The main records of a device are what the classification step appends. -/
theorem mainRecords_eq (locale : List String) (d : BI_Device) :
    mainRecords locale d =
      (match types d.assemblyType with
        | some t => [mainItem locale d t]
        | none => []) := by
  unfold mainRecords
  rw [deviceItems_eq, List.filter_append]
  have h1 : (ensureUniqueDesignators (fiducialItems locale d)).filter
      (fun item => item.type != ItemType.Fiducial) = [] := by
    apply List.filter_eq_nil_iff.mpr
    intro x hx
    have := type_of_mem_ensureUniqueDesignators
      (fun y hy => (mem_fiducialItems hy).1) hx
    simp [this]
  rw [h1]
  cases h : types d.assemblyType with
  | none => simp
  | some t =>
    have := types_ne_fiducial h
    simp [mainItem, this]

/-- The working list of a device is its fiducial records followed by its main
records. -/
theorem deviceItems_split (locale : List String) (d : BI_Device) :
    deviceItems locale d = fiducialRecords locale d ++ mainRecords locale d := by
  rw [fiducialRecords_eq, mainRecords_eq, deviceItems_eq]

/-- Adding the records of a list one by one appends the list. -/
theorem foldl_addItem (l : List PickPlaceDataItem) (data : PickPlaceData) :
    l.foldl PickPlaceData.addItem data = { data with items := data.items ++ l } := by
  induction l generalizing data with
  | nil => simp
  | cons a l ih => simp [ih, PickPlaceData.addItem]

/-- The loop over devices appends the working lists of all devices, in device
order, and leaves the header of the data set alone. -/
theorem foldl_deviceStep (locale : List String) (devices : List BI_Device)
    (data : PickPlaceData) :
    devices.foldl (deviceStep locale) data =
      { data with items := data.items ++ devices.flatMap (deviceItems locale) } := by
  induction devices generalizing data with
  | nil => simp
  | cons d devices ih => simp [ih, deviceStep, foldl_addItem, List.append_assoc]

/-- The record collection of `generate` is the concatenation of the working
lists of the devices. -/
theorem generate_items (board : Board) :
    (generate board).items =
      board.deviceInstances.flatMap (deviceItems board.project.localeOrder) := by
  unfold generate
  simp [foldl_deviceStep]

/-- A pad that is not a fiducial contributes no record. -/
theorem flatMap_padItems_filter (g v dn pn : String) (pads : List BI_FootprintPad) :
    pads.flatMap (padItems g v dn pn) =
      (pads.filter (fun pad => pad.functionIsFiducial)).flatMap (padItems g v dn pn) := by
  induction pads with
  | nil => rfl
  | cons pad pads ih =>
    cases hf : pad.functionIsFiducial with
    | true => simp [List.filter_cons, hf, ih]
    | false => simp [List.filter_cons, hf, ih, padItems_eq]

/-- A membership in the main records pins the record down. -/
theorem mem_mainRecords {locale : List String} {d : BI_Device} {m : PickPlaceDataItem}
    (hm : m ∈ mainRecords locale d) :
    ∃ t, types d.assemblyType = some t ∧ m = mainItem locale d t ∧
      mainRecords locale d = [m] := by
  have heq := mainRecords_eq locale d
  cases h : types d.assemblyType with
  | none =>
    rw [h] at heq
    rw [heq] at hm
    simp at hm
  | some t =>
    rw [h] at heq
    rw [heq, List.mem_singleton] at hm
    exact ⟨t, rfl, hm, by rw [heq, hm]⟩

/-! ## Designator texts -/

/-- The digit character of a number below ten denotes that number. -/
theorem digitValue_digitChar (k : Nat) (hk : k < 10) : digitValue (Nat.digitChar k) = k := by
  interval_cases k <;> rfl

/-- Reading back the digits that the numeral printer emits for `n`. -/
theorem foldl_toDigitsCore (fuel : Nat) : ∀ (n : Nat) (ds : List Char), n < fuel →
    (Nat.toDigitsCore 10 fuel n ds).foldl (fun acc c => 10 * acc + digitValue c) 0
      = ds.foldl (fun acc c => 10 * acc + digitValue c) n := by
  induction fuel with
  | zero => intro n ds h; omega
  | succ fuel ih =>
    intro n ds h
    simp only [Nat.toDigitsCore]
    split
    · next h0 =>
      have hn : n < 10 := by omega
      simp only [List.foldl_cons, Nat.mul_zero, Nat.zero_add]
      rw [digitValue_digitChar _ (Nat.mod_lt _ (by decide)), Nat.mod_eq_of_lt hn]
    · next h0 =>
      have hlt : n / 10 < fuel := by omega
      rw [ih (n / 10) _ hlt]
      simp only [List.foldl_cons]
      rw [digitValue_digitChar _ (Nat.mod_lt _ (by decide)), Nat.div_add_mod]

/-- The decimal numeral of `n` denotes `n`. -/
theorem decimalValue_toDigits (n : Nat) : decimalValue (Nat.toDigits 10 n) = n := by
  unfold decimalValue Nat.toDigits
  rw [foldl_toDigitsCore (n + 1) n [] (Nat.lt_succ_self n)]
  rfl

/-- Different numbers have different decimal numerals. -/
theorem toString_nat_injective {a b : Nat} (h : toString a = toString b) : a = b := by
  have h2 : decimalValue (toString a).data = decimalValue (toString b).data := by rw [h]
  have ha : (toString a).data = Nat.toDigits 10 a := rfl
  have hb : (toString b).data = Nat.toDigits 10 b := rfl
  rw [ha, hb, decimalValue_toDigits, decimalValue_toDigits] at h2
  exact h2

/-- A designator with an index appended differs from the plain designator. -/
theorem append_colon_ne (g s : String) : g ++ ":" ++ s ≠ g := by
  intro h
  have := congrArg (fun t => t.data.length) h
  simp at this

/-- Equal renamed designators of one name have equal index texts. -/
theorem append_colon_inj_right {g s t : String} (h : g ++ ":" ++ s = g ++ ":" ++ t) : s = t := by
  have := congrArg String.data h
  simp only [String.data_append, List.append_assoc] at this
  exact String.ext (List.append_cancel_left (List.append_cancel_left this))

/-- Two splits of a list at the first occurrence of `c` have the same front part. -/
theorem list_split_at_first {α : Type} {c : α} : ∀ {l₁ l₂ r₁ r₂ : List α}, c ∉ l₁ → c ∉ l₂ →
    l₁ ++ c :: r₁ = l₂ ++ c :: r₂ → l₁ = l₂
  | [], [], _, _, _, _, _ => rfl
  | [], b :: l₂, _, _, _, h2, h => by
    simp only [List.nil_append, List.cons_append, List.cons.injEq] at h
    exact absurd (h.1 ▸ List.mem_cons_self _ _) h2
  | a :: l₁, [], _, _, h1, _, h => by
    simp only [List.nil_append, List.cons_append, List.cons.injEq] at h
    exact absurd (h.1 ▸ List.mem_cons_self _ _) h1
  | a :: l₁, b :: l₂, _, _, h1, h2, h => by
    simp only [List.cons_append, List.cons.injEq] at h
    have := list_split_at_first (fun hc => h1 (List.mem_cons_of_mem _ hc))
      (fun hc => h2 (List.mem_cons_of_mem _ hc)) h.2
    rw [h.1, this]

/-- Equal renamed designators of colon-free names have equal names. -/
theorem append_colon_inj_left {g h s t : String} (hg : ':' ∉ g.data) (hh : ':' ∉ h.data)
    (e : g ++ ":" ++ s = h ++ ":" ++ t) : g = h := by
  have := congrArg String.data e
  simp only [String.data_append, List.append_assoc] at this
  exact String.ext (list_split_at_first hg hh this)

/-- A colon-free name is not a renamed designator. -/
theorem ne_append_colon {g h t : String} (hg : ':' ∉ g.data) : g ≠ h ++ ":" ++ t := by
  intro e
  apply hg
  rw [e]
  simp

/-- Every designator of a device is its component name, possibly with a colon
and an index appended. -/
theorem designator_of_mem_deviceItems {locale : List String} {d : BI_Device}
    {x : PickPlaceDataItem} (hx : x ∈ deviceItems locale d) :
    x.designator = d.componentName ∨
      ∃ k : Nat, x.designator = d.componentName ++ ":" ++ toString k := by
  rw [deviceItems_eq] at hx
  rcases List.mem_append.mp hx with hf | hm
  · unfold ensureUniqueDesignators at hf
    split at hf
    · right
      have hmem : x.designator ∈ (renameFrom 0 (fiducialItems locale d)).map
          (fun y => y.designator) := List.mem_map_of_mem _ hf
      rw [designator_renameFrom d.componentName 0 _ (fun y hy => (mem_fiducialItems hy).2)]
        at hmem
      obtain ⟨k, -, hk⟩ := List.mem_map.mp hmem
      exact ⟨k, hk.symm⟩
    · exact Or.inl (mem_fiducialItems hf).2
  · left
    cases h : types d.assemblyType with
    | none => simp [h] at hm
    | some t =>
      simp only [h, List.mem_singleton] at hm
      rw [hm]
      rfl

/-- The designators of one device are pairwise distinct unless the device has
exactly one fiducial record together with a main record. -/
theorem nodup_designators_deviceItems (locale : List String) (d : BI_Device)
    (h : (fiducialRecords locale d).length = 1 → mainRecords locale d = []) :
    ((deviceItems locale d).map (fun x => x.designator)).Nodup := by
  have hplain : ∀ x ∈ fiducialItems locale d, x.designator = d.componentName :=
    fun x hx => (mem_fiducialItems hx).2
  have hmain : (mainRecords locale d).map (fun x => x.designator) = [] ∨
      (mainRecords locale d).map (fun x => x.designator) = [d.componentName] := by
    rw [mainRecords_eq]
    cases types d.assemblyType with
    | none => exact Or.inl rfl
    | some t => exact Or.inr rfl
  rw [deviceItems_split, List.map_append]
  rw [fiducialRecords_eq, length_ensureUniqueDesignators] at h
  rw [fiducialRecords_eq]
  by_cases hgt : (fiducialItems locale d).length > 1
  · simp only [ensureUniqueDesignators, hgt, if_true]
    rw [designator_renameFrom d.componentName 0 _ hplain]
    have hinj : Function.Injective (fun k : Nat => d.componentName ++ ":" ++ toString k) :=
      fun a b hab => toString_nat_injective (append_colon_inj_right hab)
    have hfid := (List.nodup_range' 1 (fiducialItems locale d).length).map hinj
    rcases hmain with hm | hm
    · rw [hm, List.append_nil]
      exact hfid
    · rw [hm]
      refine List.nodup_append.mpr ⟨hfid, List.nodup_singleton _, ?_⟩
      intro s hs hs2
      obtain ⟨k, -, hk⟩ := List.mem_map.mp hs
      rw [List.mem_singleton] at hs2
      exact append_colon_ne d.componentName (toString k) (hk.trans hs2)
  · simp only [ensureUniqueDesignators, hgt, if_false]
    match hl : fiducialItems locale d, hgt with
    | [], _ =>
      rcases hmain with hm | hm <;> rw [hm] <;> simp
    | [x], _ =>
      rw [hl] at h
      rw [h rfl]
      simp
    | _ :: _ :: _, hgt2 => simp at hgt2

/-- The designators of devices with different colon-free names are disjoint. -/
theorem disjoint_designators_deviceItems (locale : List String) (d e : BI_Device)
    (hne : d.componentName ≠ e.componentName)
    (hd : ':' ∉ d.componentName.data) (he : ':' ∉ e.componentName.data) :
    List.Disjoint ((deviceItems locale d).map (fun x => x.designator))
      ((deviceItems locale e).map (fun x => x.designator)) := by
  intro s hs1 hs2
  obtain ⟨x, hx, rfl⟩ := List.mem_map.mp hs1
  obtain ⟨y, hy, hxy⟩ := List.mem_map.mp hs2
  replace hxy : y.designator = x.designator := hxy
  rcases designator_of_mem_deviceItems hx with h1 | ⟨k, h1⟩ <;>
    rcases designator_of_mem_deviceItems hy with h2 | ⟨j, h2⟩
  · exact hne (h1.symm.trans (hxy.symm.trans h2))
  · exact ne_append_colon hd (h1.symm.trans (hxy.symm.trans h2))
  · exact ne_append_colon he (h2.symm.trans (hxy.trans h1))
  · exact hne (append_colon_inj_left hd he (h1.symm.trans (hxy.symm.trans h2)))

/-- A pad yields no record exactly when it is not a fiducial or is on neither
copper layer. -/
theorem padItems_eq_nil_iff (g v dn pn : String) (pad : BI_FootprintPad) :
    padItems g v dn pn pad = [] ↔
      (pad.functionIsFiducial = true →
        pad.isOnTopCopper = false ∧ pad.isOnBotCopper = false) := by
  rw [padItems_eq]
  cases pad.functionIsFiducial <;> cases ht : pad.isOnTopCopper <;>
    cases hb : pad.isOnBotCopper <;> simp [padSides, ht, hb]

/-- Disambiguation yields no record exactly when it is given none. -/
theorem ensureUniqueDesignators_eq_nil_iff (l : List PickPlaceDataItem) :
    ensureUniqueDesignators l = [] ↔ l = [] := by
  rw [← List.length_eq_zero, length_ensureUniqueDesignators, List.length_eq_zero]

/-- The map `types` has no entry exactly for the assembly types other than
Tht, Smt, Mixed and Other. -/
theorem types_eq_none_iff (a : Package.AssemblyType) :
    types a = none ↔
      (a ≠ Package.AssemblyType.Tht ∧ a ≠ Package.AssemblyType.Smt ∧
        a ≠ Package.AssemblyType.Mixed ∧ a ≠ Package.AssemblyType.Other) := by
  cases a <;> simp [types]

/-- A device yields no record exactly when its assembly type is not in the map
and none of its fiducial pads is on a copper layer. -/
theorem deviceItems_eq_nil_iff (locale : List String) (d : BI_Device) :
    deviceItems locale d = [] ↔
      (d.assemblyType ≠ Package.AssemblyType.Tht ∧ d.assemblyType ≠ Package.AssemblyType.Smt ∧
        d.assemblyType ≠ Package.AssemblyType.Mixed ∧
        d.assemblyType ≠ Package.AssemblyType.Other) ∧
      (∀ pad ∈ d.pads, pad.functionIsFiducial = true →
        pad.isOnTopCopper = false ∧ pad.isOnBotCopper = false) := by
  rw [deviceItems_eq, List.append_eq_nil, ensureUniqueDesignators_eq_nil_iff, fiducialItems_eq,
    List.flatMap_eq_nil_iff, ← types_eq_none_iff]
  constructor
  · rintro ⟨hpads, hmain⟩
    refine ⟨?_, fun pad hpad => (padItems_eq_nil_iff _ _ _ _ pad).mp (hpads pad hpad)⟩
    cases h : types d.assemblyType with
    | none => rfl
    | some t => simp [h] at hmain
  · rintro ⟨hty, hpads⟩
    refine ⟨fun pad hpad => (padItems_eq_nil_iff _ _ _ _ pad).mpr (hpads pad hpad), ?_⟩
    simp [hty]

/-- Removing the pads that are not fiducials leaves the working list of a
device unchanged. -/
theorem deviceItems_withoutPlainPads (locale : List String) (d : BI_Device) :
    deviceItems locale (withoutPlainPads d) = deviceItems locale d := by
  have hfid : fiducialItems locale (withoutPlainPads d) = fiducialItems locale d := by
    rw [fiducialItems_eq, fiducialItems_eq]
    exact (flatMap_padItems_filter _ _ _ _ d.pads).symm
  rw [deviceItems_eq, deviceItems_eq, hfid]
  rfl

/-- The data set of `generate`: the header of the board and the concatenated
working lists. -/
theorem generate_eq (board : Board) :
    generate board =
      { projectName := board.project.name
        projectVersion := board.project.version
        boardName := board.name
        items := board.deviceInstances.flatMap (deviceItems board.project.localeOrder) } := by
  unfold generate
  simp [foldl_deviceStep]

/-! ## Properties of the generated records -/

/-- C1: for every device, the kinds of its main (non-fiducial) records are: the
single kind of the same name when the package assembly type is one of Tht, Smt,
Mixed, Other, and none at all for any other assembly type. -/
theorem C1_main_record_classification (locale : List String) (device : BI_Device) :
    (mainRecords locale device).map (fun item => item.type) =
      if device.assemblyType = Package.AssemblyType.Tht then [ItemType.Tht]
      else if device.assemblyType = Package.AssemblyType.Smt then [ItemType.Smt]
      else if device.assemblyType = Package.AssemblyType.Mixed then [ItemType.Mixed]
      else if device.assemblyType = Package.AssemblyType.Other then [ItemType.Other]
      else [] := by
  rw [mainRecords_eq]
  cases h : device.assemblyType <;> simp [types, mainItem]

/-- C2: for every device with component name `d`, a single fiducial record
carries the designator `d`, and when there are `N ≥ 2` fiducial records their
designators are, in record order, `d:1`, ..., `d:N`. -/
theorem C2_fiducial_designators (locale : List String) (device : BI_Device) :
    ((fiducialRecords locale device).length = 1 →
      (fiducialRecords locale device).map (fun item => item.designator)
        = [device.componentName]) ∧
    (2 ≤ (fiducialRecords locale device).length →
      (fiducialRecords locale device).map (fun item => item.designator)
        = (List.range' 1 (fiducialRecords locale device).length).map
            (fun i => device.componentName ++ ":" ++ toString i)) := by
  have hplain : ∀ x ∈ fiducialItems locale device, x.designator = device.componentName :=
    fun x hx => (mem_fiducialItems hx).2
  rw [fiducialRecords_eq, length_ensureUniqueDesignators]
  constructor
  · intro h1
    have hnot : ¬ (fiducialItems locale device).length > 1 := by omega
    simp only [ensureUniqueDesignators, hnot, if_false]
    match hl : fiducialItems locale device, h1 with
    | [x], _ =>
      have := hplain x (by rw [hl]; exact List.mem_singleton_self x)
      simp [this]
  · intro h2
    have hgt : (fiducialItems locale device).length > 1 := by omega
    simp only [ensureUniqueDesignators, hgt, if_true]
    exact designator_renameFrom device.componentName 0 _ hplain

/-- C2 at concrete devices: one fiducial record keeps `F1`; two fiducial
records become `X:1` and `X:2`. -/
theorem C2_fiducial_designators_witness :
    (fiducialRecords [] deviceF1).map (fun item => item.designator) = ["F1"] ∧
    (fiducialRecords [] deviceX).map (fun item => item.designator) = ["X:1", "X:2"] :=
  ⟨(C2_fiducial_designators [] deviceF1).1 (by decide),
   (C2_fiducial_designators [] deviceX).2 (by decide)⟩

/-- C3, amended: on a board whose devices have pairwise distinct component
names without a colon, and on which no device has exactly one fiducial record
together with a main record, no two records at different positions of the
generated data set share a designator. -/
theorem C3_designators_nodup (board : Board)
    (hnames : (board.deviceInstances.map (fun d => d.componentName)).Nodup)
    (hcolon : ∀ d ∈ board.deviceInstances, ':' ∉ d.componentName.data)
    (hsingle : ∀ d ∈ board.deviceInstances,
      (fiducialRecords board.project.localeOrder d).length = 1 →
        mainRecords board.project.localeOrder d = []) :
    (designators (generate board)).Nodup := by
  unfold designators
  rw [generate_items, List.map_flatMap]
  refine List.nodup_flatMap.mpr ⟨?_, ?_⟩
  · intro d hd
    exact nodup_designators_deviceItems _ d (hsingle d hd)
  · have hpair : List.Pairwise (fun d e : BI_Device => d.componentName ≠ e.componentName)
        board.deviceInstances := List.pairwise_map.mp hnames
    refine List.Pairwise.imp_of_mem ?_ hpair
    intro d e hd he hne
    exact disjoint_designators_deviceItems _ d e hne (hcolon d hd) (hcolon e he)

/-- C3, amended, at a board with three devices: the renamed fiducials `X:1`,
`X:2`, the main records `X` and `R1`, and the single fiducial `F2`. -/
theorem C3_designators_nodup_witness :
    designators (generate ⟨sampleProject, "default", [deviceX, deviceR1, deviceF2]⟩)
        = ["X:1", "X:2", "X", "R1", "F2"] ∧
      (designators (generate ⟨sampleProject, "default", [deviceX, deviceR1, deviceF2]⟩)).Nodup :=
  ⟨by decide,
   C3_designators_nodup ⟨sampleProject, "default", [deviceX, deviceR1, deviceF2]⟩
    (by decide) (by decide) (by decide)⟩

/-- C3 as stated fails: a device with one fiducial pad on the top copper layer
and a surface-mount package yields two records that both carry `F1`. -/
theorem C3_counterexample :
    designators (generate boardF1) = ["F1", "F1"] ∧
      ¬ (designators (generate boardF1)).Nodup := by
  decide

/-- C4: the rotation of a main record is the negated rotation of its device
when the device is mirrored, and the rotation of the device when it is not. -/
theorem C4_main_rotation (locale : List String) (device : BI_Device)
    (m : PickPlaceDataItem) (hm : m ∈ mainRecords locale device) :
    (device.mirrored = true → m.rotation = -device.rotation) ∧
      (device.mirrored = false → m.rotation = device.rotation) := by
  obtain ⟨t, -, rfl, -⟩ := mem_mainRecords hm
  constructor <;> intro h <;> simp [mainItem, h]

/-- C4 at the mirrored device `deviceX` (rotation 30° becomes -30°) and at the
non-mirrored device `deviceR1` (rotation 90° is kept). -/
theorem C4_main_rotation_witness :
    (mainItem [] deviceX ItemType.Tht ∈ mainRecords [] deviceX ∧
      (mainItem [] deviceX ItemType.Tht).rotation = -30000000) ∧
    (mainItem [] deviceR1 ItemType.Smt ∈ mainRecords [] deviceR1 ∧
      (mainItem [] deviceR1 ItemType.Smt).rotation = 90000000) :=
  ⟨⟨by decide, (C4_main_rotation [] deviceX _ (by decide)).1 rfl⟩,
   ⟨by decide, (C4_main_rotation [] deviceR1 _ (by decide)).2 rfl⟩⟩

/-- C5, amended: the rotations of the fiducial records of a device are, pad by
pad and once for each side the pad is on, the rotation of the pad, negated
exactly when the mirrored flag of the pad itself is set; the mirrored flag of
the device is not read. -/
theorem C5_fiducial_rotation (locale : List String) (device : BI_Device) :
    (fiducialRecords locale device).map (fun item => item.rotation) =
      device.pads.flatMap (fun pad =>
        if pad.functionIsFiducial then
          (padSides pad).map (fun _ => if pad.mirrored then -pad.rotation else pad.rotation)
        else []) := by
  rw [fiducialRecords_eq,
    map_ensureUniqueDesignators (fun item => item.rotation) (fun _ _ => rfl),
    fiducialItems_eq, List.map_flatMap]
  congr 1
  funext pad
  rw [padItems_eq]
  split
  · rw [List.map_map]
    rfl
  · rfl

/-- C5 as stated fails: `deviceF2` is not mirrored, its fiducial pad is
mirrored and has rotation 45°, and the fiducial record has rotation -45°, not
the unchanged 45° that the mirrored flag of the device would give. -/
theorem C5_counterexample :
    deviceF2.mirrored = false ∧ deviceF2.pads = [padBottom] ∧
      padBottom.rotation = 45000000 ∧
      (fiducialRecords [] deviceF2).map (fun item => item.rotation) = [-45000000] ∧
      (fiducialRecords [] deviceF2).map (fun item => item.rotation) ≠
        deviceF2.pads.flatMap (fun pad =>
          if pad.functionIsFiducial then
            (padSides pad).map
              (fun _ => if deviceF2.mirrored then -pad.rotation else pad.rotation)
          else []) := by
  decide

/-- C6, amended: a fiducial pad on both copper layers yields exactly two
records, next to each other after the records of the pads before it: they agree
in value, device name, package name, position, rotation and kind, the first has
side Top and the second side Bottom, and their designators are the component
name with the two consecutive list indices appended. -/
theorem C6_fiducial_on_both_layers (locale : List String) (device : BI_Device)
    (before after : List BI_FootprintPad) (pad : BI_FootprintPad)
    (hpads : device.pads = before ++ pad :: after)
    (hfid : pad.functionIsFiducial = true)
    (htop : pad.isOnTopCopper = true) (hbot : pad.isOnBotCopper = true) :
    fiducialRecords locale device =
      renameFrom 0 (fiducialItems locale { device with pads := before }) ++
        [PickPlaceDataItem.mk
            (device.componentName ++ ":" ++
              toString ((fiducialItems locale { device with pads := before }).length + 1))
            device.componentValueTrimmed (device.libDeviceName locale)
            (device.libPackageName locale) pad.position (padRotation pad)
            BoardSide.Top ItemType.Fiducial,
          PickPlaceDataItem.mk
            (device.componentName ++ ":" ++
              toString ((fiducialItems locale { device with pads := before }).length + 2))
            device.componentValueTrimmed (device.libDeviceName locale)
            (device.libPackageName locale) pad.position (padRotation pad)
            BoardSide.Bottom ItemType.Fiducial] ++
        renameFrom ((fiducialItems locale { device with pads := before }).length + 2)
          (fiducialItems locale { device with pads := after }) := by
  have hpad : padItems device.componentName device.componentValueTrimmed
      (device.libDeviceName locale) (device.libPackageName locale) pad =
      [PickPlaceDataItem.mk device.componentName device.componentValueTrimmed
          (device.libDeviceName locale) (device.libPackageName locale) pad.position
          (padRotation pad) BoardSide.Top ItemType.Fiducial,
        PickPlaceDataItem.mk device.componentName device.componentValueTrimmed
          (device.libDeviceName locale) (device.libPackageName locale) pad.position
          (padRotation pad) BoardSide.Bottom ItemType.Fiducial] := by
    simp [padItems_eq, hfid, padSides, htop, hbot]
  rw [fiducialRecords_eq]
  simp only [fiducialItems_eq, hpads, List.flatMap_append, List.flatMap_cons, hpad]
  have hlen : (before.flatMap (padItems device.componentName device.componentValueTrimmed
      (device.libDeviceName locale) (device.libPackageName locale)) ++
      ([PickPlaceDataItem.mk device.componentName device.componentValueTrimmed
          (device.libDeviceName locale) (device.libPackageName locale) pad.position
          (padRotation pad) BoardSide.Top ItemType.Fiducial,
        PickPlaceDataItem.mk device.componentName device.componentValueTrimmed
          (device.libDeviceName locale) (device.libPackageName locale) pad.position
          (padRotation pad) BoardSide.Bottom ItemType.Fiducial] ++
      after.flatMap (padItems device.componentName device.componentValueTrimmed
        (device.libDeviceName locale) (device.libPackageName locale)))).length > 1 := by
    simp only [List.length_append, List.length_cons, List.length_nil]
    omega
  simp only [ensureUniqueDesignators, hlen, if_true]
  rw [renameFrom_append, renameFrom_append]
  simp [renameFrom, PickPlaceDataItem.setDesignator, Nat.add_assoc]

/-- C6, amended, at the device `deviceF3`, whose only pad is on both layers:
its two records are `F3:1` on Top and `F3:2` on Bottom. -/
theorem C6_fiducial_on_both_layers_witness :
    fiducialRecords [] deviceF3 =
      [PickPlaceDataItem.mk "F3:1" "" "Marker" "MARK" ⟨5000000, 6000000⟩ 30000000
          BoardSide.Top ItemType.Fiducial,
        PickPlaceDataItem.mk "F3:2" "" "Marker" "MARK" ⟨5000000, 6000000⟩ 30000000
          BoardSide.Bottom ItemType.Fiducial] :=
  C6_fiducial_on_both_layers [] deviceF3 [] [] padBoth rfl rfl rfl rfl

/-- C6 as stated fails: the two records of the pad of `deviceF3`, which is
a fiducial on both copper layers, differ in their designators as well as in
their board sides. -/
theorem C6_counterexample :
    deviceF3.pads = [padBoth] ∧ padBoth.functionIsFiducial = true ∧
      padBoth.isOnTopCopper = true ∧ padBoth.isOnBotCopper = true ∧
      (fiducialRecords [] deviceF3).map (fun item => (item.designator, item.boardSide)) =
        [("F3:1", BoardSide.Top), ("F3:2", BoardSide.Bottom)] := by
  decide

/-- C7: a main record of a device is the last of the records of the device,
after all its fiducial records, and carries the plain component name. -/
theorem C7_main_record_last (locale : List String) (device : BI_Device)
    (m : PickPlaceDataItem) (hm : m ∈ mainRecords locale device) :
    deviceItems locale device = fiducialRecords locale device ++ [m] ∧
      m.designator = device.componentName := by
  obtain ⟨t, -, hmt, hmain⟩ := mem_mainRecords hm
  refine ⟨?_, ?_⟩
  · rw [deviceItems_split, hmain]
  · rw [hmt]
    rfl

/-- C7 at the device `deviceX` with two renamed fiducial records: the main
record comes third and is named `X`. -/
theorem C7_main_record_last_witness :
    (deviceItems [] deviceX).map (fun item => (item.designator, item.type)) =
        [("X:1", ItemType.Fiducial), ("X:2", ItemType.Fiducial), ("X", ItemType.Tht)] ∧
      deviceItems [] deviceX =
        fiducialRecords [] deviceX ++ [mainItem [] deviceX ItemType.Tht] ∧
      (mainItem [] deviceX ItemType.Tht).designator = "X" :=
  ⟨by decide, C7_main_record_last [] deviceX (mainItem [] deviceX ItemType.Tht) (by decide)⟩

/-- C8: the board side of a main record is Bottom exactly when its device is
mirrored and Top exactly when it is not, and its position is the position of
the device. -/
theorem C8_main_side_position (locale : List String) (device : BI_Device)
    (m : PickPlaceDataItem) (hm : m ∈ mainRecords locale device) :
    (m.boardSide = BoardSide.Bottom ↔ device.mirrored = true) ∧
      (m.boardSide = BoardSide.Top ↔ device.mirrored = false) ∧
      m.position = device.position := by
  obtain ⟨t, -, rfl, -⟩ := mem_mainRecords hm
  cases h : device.mirrored <;> simp [mainItem, h]

/-- C8 at the mirrored device `deviceX` and the non-mirrored device `deviceR1`. -/
theorem C8_main_side_position_witness :
    ((mainItem [] deviceX ItemType.Tht).boardSide = BoardSide.Bottom ∧
      (mainItem [] deviceX ItemType.Tht).position = ⟨-5000000, 0⟩) ∧
    ((mainItem [] deviceR1 ItemType.Smt).boardSide = BoardSide.Top ∧
      (mainItem [] deviceR1 ItemType.Smt).position = ⟨10000000, 20000000⟩) :=
  ⟨⟨(C8_main_side_position [] deviceX _ (by decide)).1.mpr rfl,
    (C8_main_side_position [] deviceX (mainItem [] deviceX ItemType.Tht) (by decide)).2.2⟩,
   ⟨(C8_main_side_position [] deviceR1 _ (by decide)).2.1.mpr rfl,
    (C8_main_side_position [] deviceR1 (mainItem [] deviceR1 ItemType.Smt) (by decide)).2.2⟩⟩

/-- C9: the record collection of `generate` is the concatenation, in device
order, of the working lists of the devices; so the records for the devices
`A ++ B` are the records for `A` followed by the records for `B`; and each
working list is the fiducial records followed by at most one main record. -/
theorem C9_generate_concat :
    (∀ (project : Project) (name : String) (A B : List BI_Device),
      (generate ⟨project, name, A ++ B⟩).items =
        (generate ⟨project, name, A⟩).items ++ (generate ⟨project, name, B⟩).items) ∧
    (∀ board : Board, (generate board).items =
        board.deviceInstances.flatMap (deviceItems board.project.localeOrder)) ∧
    (∀ (locale : List String) (device : BI_Device),
      deviceItems locale device = fiducialRecords locale device ++ mainRecords locale device ∧
        (mainRecords locale device).length ≤ 1) := by
  refine ⟨?_, generate_items, ?_⟩
  · intro project name A B
    simp only [generate_items, List.flatMap_append]
  · intro locale device
    refine ⟨deviceItems_split locale device, ?_⟩
    rw [mainRecords_eq]
    cases types device.assemblyType <;> simp

/-- C10: a board whose single device is mirrored, has assembly type Tht and
has exactly two fiducial pads, each on the bottom copper layer only, yields
exactly three records: the fiducials `X:1` and `X:2` on side Bottom, then the
Tht record named `X` on side Bottom with the negated device rotation. -/
theorem C10_scenario_B (board : Board) (device : BI_Device) (p1 p2 : BI_FootprintPad)
    (hdev : board.deviceInstances = [device])
    (hmir : device.mirrored = true)
    (htht : device.assemblyType = Package.AssemblyType.Tht)
    (hfid : device.pads.filter (fun pad => pad.functionIsFiducial) = [p1, p2])
    (h1t : p1.isOnTopCopper = false) (h1b : p1.isOnBotCopper = true)
    (h2t : p2.isOnTopCopper = false) (h2b : p2.isOnBotCopper = true) :
    (generate board).items =
      [PickPlaceDataItem.mk (device.componentName ++ ":1") device.componentValueTrimmed
          (device.libDeviceName board.project.localeOrder)
          (device.libPackageName board.project.localeOrder)
          p1.position (padRotation p1) BoardSide.Bottom ItemType.Fiducial,
        PickPlaceDataItem.mk (device.componentName ++ ":2") device.componentValueTrimmed
          (device.libDeviceName board.project.localeOrder)
          (device.libPackageName board.project.localeOrder)
          p2.position (padRotation p2) BoardSide.Bottom ItemType.Fiducial,
        PickPlaceDataItem.mk device.componentName device.componentValueTrimmed
          (device.libDeviceName board.project.localeOrder)
          (device.libPackageName board.project.localeOrder)
          device.position (-device.rotation) BoardSide.Bottom ItemType.Tht] := by
  have hp1 : p1.functionIsFiducial = true := by
    have : p1 ∈ device.pads.filter (fun pad => pad.functionIsFiducial) := by simp [hfid]
    simpa using (List.mem_filter.mp this).2
  have hp2 : p2.functionIsFiducial = true := by
    have : p2 ∈ device.pads.filter (fun pad => pad.functionIsFiducial) := by simp [hfid]
    simpa using (List.mem_filter.mp this).2
  have h1 : (toString 1 : String) = "1" := rfl
  have h2 : (toString 2 : String) = "2" := rfl
  have hc1 : device.componentName ++ ":" ++ "1" = device.componentName ++ ":1" := by
    rw [String.append_assoc]; rfl
  have hc2 : device.componentName ++ ":" ++ "2" = device.componentName ++ ":2" := by
    rw [String.append_assoc]; rfl
  rw [generate_items, hdev]
  simp only [List.flatMap_cons, List.flatMap_nil, List.append_nil]
  rw [deviceItems_eq, fiducialItems_eq, flatMap_padItems_filter, hfid]
  simp [padItems_eq, hp1, hp2, padSides, h1t, h1b, h2t, h2b, ensureUniqueDesignators,
    renameFrom, PickPlaceDataItem.setDesignator, htht, types, mainItem, hmir, h1, h2, hc1, hc2]

/-- C10 at the board `boardX`, whose device also has a pad that is not a
fiducial between the two fiducial pads. -/
theorem C10_scenario_B_witness :
    (generate boardX).items =
      [PickPlaceDataItem.mk "X:1" "" "Connector" "HDR-2" ⟨3000000, 4000000⟩ (-45000000)
          BoardSide.Bottom ItemType.Fiducial,
        PickPlaceDataItem.mk "X:2" "" "Connector" "HDR-2" ⟨3000000, 4000000⟩ (-45000000)
          BoardSide.Bottom ItemType.Fiducial,
        PickPlaceDataItem.mk "X" "" "Connector" "HDR-2" ⟨-5000000, 0⟩ (-30000000)
          BoardSide.Bottom ItemType.Tht] :=
  C10_scenario_B boardX deviceX padBottom padBottom rfl rfl rfl rfl rfl rfl rfl rfl

/-- C11: a board whose single device is not mirrored, has assembly type Smt
and has no pad flagged as fiducial (it may have other pads) yields exactly one
record: kind Smt, side Top, the rotation of the device and the component name
as designator. -/
theorem C11_scenario_A (board : Board) (device : BI_Device)
    (hdev : board.deviceInstances = [device])
    (hmir : device.mirrored = false)
    (hsmt : device.assemblyType = Package.AssemblyType.Smt)
    (hnofid : ∀ pad ∈ device.pads, pad.functionIsFiducial = false) :
    (generate board).items =
      [PickPlaceDataItem.mk device.componentName device.componentValueTrimmed
          (device.libDeviceName board.project.localeOrder)
          (device.libPackageName board.project.localeOrder)
          device.position device.rotation BoardSide.Top ItemType.Smt] := by
  have hfilter : device.pads.filter (fun pad => pad.functionIsFiducial) = [] := by
    apply List.filter_eq_nil_iff.mpr
    intro pad hpad
    simp [hnofid pad hpad]
  rw [generate_items, hdev]
  simp only [List.flatMap_cons, List.flatMap_nil, List.append_nil]
  rw [deviceItems_eq, fiducialItems_eq, flatMap_padItems_filter, hfilter]
  simp [ensureUniqueDesignators, hsmt, types, mainItem, hmir]

/-- C11 at the board `boardR2`, whose device has two pads that are not
fiducials. -/
theorem C11_scenario_A_witness :
    (generate boardR2).items =
      [PickPlaceDataItem.mk "R2" "4k7" "Resistor 0603" "R-0603" ⟨11000000, 21000000⟩
          180000000 BoardSide.Top ItemType.Smt] :=
  C11_scenario_A boardR2 deviceR2 rfl rfl rfl (by decide)

/-- C12: `generate` returns no record exactly when every device of the board
has an assembly type other than Tht, Smt, Mixed, Other and has no fiducial pad
on the top or bottom copper layer; so an empty board yields no record, and so
does a board whose only device is unmountable and has no fiducial pad. -/
theorem C12_no_records_iff :
    (∀ board : Board, (generate board).items = [] ↔
      ∀ d ∈ board.deviceInstances,
        (d.assemblyType ≠ Package.AssemblyType.Tht ∧
          d.assemblyType ≠ Package.AssemblyType.Smt ∧
          d.assemblyType ≠ Package.AssemblyType.Mixed ∧
          d.assemblyType ≠ Package.AssemblyType.Other) ∧
        (∀ pad ∈ d.pads, pad.functionIsFiducial = true →
          pad.isOnTopCopper = false ∧ pad.isOnBotCopper = false)) ∧
    (∀ (project : Project) (name : String), (generate ⟨project, name, []⟩).items = []) ∧
    (∀ (project : Project) (name : String) (d : BI_Device),
      d.assemblyType = Package.AssemblyType.Unmountable →
      (∀ pad ∈ d.pads, pad.functionIsFiducial = false) →
        (generate ⟨project, name, [d]⟩).items = []) := by
  have hiff : ∀ board : Board, (generate board).items = [] ↔
      ∀ d ∈ board.deviceInstances,
        (d.assemblyType ≠ Package.AssemblyType.Tht ∧
          d.assemblyType ≠ Package.AssemblyType.Smt ∧
          d.assemblyType ≠ Package.AssemblyType.Mixed ∧
          d.assemblyType ≠ Package.AssemblyType.Other) ∧
        (∀ pad ∈ d.pads, pad.functionIsFiducial = true →
          pad.isOnTopCopper = false ∧ pad.isOnBotCopper = false) := by
    intro board
    rw [generate_items, List.flatMap_eq_nil_iff]
    exact forall₂_congr (fun d _ => deviceItems_eq_nil_iff _ d)
  refine ⟨hiff, ?_, ?_⟩
  · intro project name
    exact (hiff ⟨project, name, []⟩).mpr (fun d hd => absurd hd (List.not_mem_nil d))
  · intro project name d hty hpads
    apply (hiff ⟨project, name, [d]⟩).mpr
    intro e he
    rw [List.mem_singleton] at he
    subst he
    refine ⟨by simp [hty], fun pad hpad hfid => ?_⟩
    rw [hpads pad hpad] at hfid
    exact absurd hfid (by decide)

/-- C12 at the board `boardU1` (an unmountable device whose fiducial pad is on
neither copper layer: no record) and at the board `boardF1` (records exist). -/
theorem C12_no_records_iff_witness :
    (generate boardU1).items = [] ∧ (generate boardF1).items ≠ [] :=
  ⟨(C12_no_records_iff.1 boardU1).mpr (by decide),
   fun h => absurd ((C12_no_records_iff.1 boardF1).mp h) (by decide)⟩

/-- C13: the fiducial records of a device are, pad by pad in pad order, for
each pad flagged as fiducial one record if it is on the top copper layer and
then one record if it is on the bottom copper layer, each of kind Fiducial and
at the position of the pad with the side Top resp. Bottom; so a fiducial pad
yields as many records as the number of these two layers it is on. -/
theorem C13_fiducial_extraction (locale : List String) (device : BI_Device) :
    (fiducialRecords locale device).map
        (fun item => (item.position, item.boardSide, item.type)) =
      device.pads.flatMap (fun pad =>
        if pad.functionIsFiducial then
          (if pad.isOnTopCopper then [(pad.position, BoardSide.Top, ItemType.Fiducial)]
            else []) ++
          (if pad.isOnBotCopper then [(pad.position, BoardSide.Bottom, ItemType.Fiducial)]
            else [])
        else []) ∧
    (∀ pad ∈ device.pads, pad.functionIsFiducial = true →
      (padItems device.componentName device.componentValueTrimmed
          (device.libDeviceName locale) (device.libPackageName locale) pad).length =
        (if pad.isOnTopCopper then 1 else 0) + (if pad.isOnBotCopper then 1 else 0)) ∧
    (fiducialRecords locale device).length =
      (device.pads.map (fun pad =>
        (padItems device.componentName device.componentValueTrimmed
          (device.libDeviceName locale) (device.libPackageName locale) pad).length)).sum := by
  refine ⟨?_, ?_, ?_⟩
  · rw [fiducialRecords_eq,
      map_ensureUniqueDesignators (fun item => (item.position, item.boardSide, item.type))
        (fun _ _ => rfl),
      fiducialItems_eq, List.map_flatMap]
    congr 1
    funext pad
    rw [padItems_eq]
    cases pad.functionIsFiducial <;> cases ht : pad.isOnTopCopper <;>
      cases hb : pad.isOnBotCopper <;> simp [padSides, ht, hb]
  · intro pad _ hfid
    rw [padItems_eq]
    cases ht : pad.isOnTopCopper <;> cases hb : pad.isOnBotCopper <;>
      simp [padSides, ht, hb, hfid]
  · rw [fiducialRecords_eq, length_ensureUniqueDesignators, fiducialItems_eq,
      List.length_flatMap]
    rfl

/-- C13 at the pads top-only, not a fiducial, both layers, neither layer,
bottom-only: four records, in pad order and Top before Bottom. -/
theorem C13_fiducial_extraction_witness :
    (fiducialRecords []
        { deviceF3 with pads := [padTop, padPlain, padBoth, padNoCopper, padBottom] }).map
        (fun item => (item.position, item.boardSide, item.type)) =
      [(⟨1000000, 2000000⟩, BoardSide.Top, ItemType.Fiducial),
        (⟨5000000, 6000000⟩, BoardSide.Top, ItemType.Fiducial),
        (⟨5000000, 6000000⟩, BoardSide.Bottom, ItemType.Fiducial),
        (⟨3000000, 4000000⟩, BoardSide.Bottom, ItemType.Fiducial)] :=
  (C13_fiducial_extraction []
    { deviceF3 with pads := [padTop, padPlain, padBoth, padNoCopper, padBottom] }).1

/-- C14: a device with exactly one fiducial record and an assembly type among
Tht, Smt, Mixed, Other yields exactly two records, the fiducial record and then
the main record, and both carry the plain component name as designator. -/
theorem C14_duplicate_plain_designator (locale : List String) (device : BI_Device)
    (hone : (fiducialRecords locale device).length = 1)
    (hty : device.assemblyType = Package.AssemblyType.Tht ∨
      device.assemblyType = Package.AssemblyType.Smt ∨
      device.assemblyType = Package.AssemblyType.Mixed ∨
      device.assemblyType = Package.AssemblyType.Other) :
    ∃ f m : PickPlaceDataItem,
      deviceItems locale device = [f, m] ∧
      f.type = ItemType.Fiducial ∧ m.type ≠ ItemType.Fiducial ∧
      f.designator = device.componentName ∧ m.designator = device.componentName := by
  obtain ⟨t, ht⟩ : ∃ t, types device.assemblyType = some t := by
    rcases hty with h | h | h | h <;> rw [h] <;> exact ⟨_, rfl⟩
  have hmain : mainRecords locale device = [mainItem locale device t] := by
    rw [mainRecords_eq, ht]
  have hlen : (fiducialItems locale device).length = 1 := by
    rw [fiducialRecords_eq, length_ensureUniqueDesignators] at hone
    exact hone
  have hkeep : fiducialRecords locale device = fiducialItems locale device := by
    have hnot : ¬ (fiducialItems locale device).length > 1 := by omega
    rw [fiducialRecords_eq]
    simp only [ensureUniqueDesignators, hnot, if_false]
  match hf : fiducialItems locale device, hlen with
  | [f], _ =>
    have hmem : f ∈ fiducialItems locale device := by
      rw [hf]
      exact List.mem_singleton_self f
    refine ⟨f, mainItem locale device t, ?_, (mem_fiducialItems hmem).1,
      types_ne_fiducial ht, (mem_fiducialItems hmem).2, rfl⟩
    rw [deviceItems_split, hkeep, hf, hmain]
    rfl

/-- C14 at the device `deviceF1`: the fiducial record and the Smt record are
both named `F1`. -/
theorem C14_duplicate_plain_designator_witness :
    (deviceItems [] deviceF1).map (fun item => (item.designator, item.type)) =
        [("F1", ItemType.Fiducial), ("F1", ItemType.Smt)] ∧
      ∃ f m : PickPlaceDataItem,
        deviceItems [] deviceF1 = [f, m] ∧
        f.type = ItemType.Fiducial ∧ m.type ≠ ItemType.Fiducial ∧
        f.designator = deviceF1.componentName ∧ m.designator = deviceF1.componentName :=
  ⟨by decide, C14_duplicate_plain_designator [] deviceF1 (by decide) (Or.inr (Or.inl rfl))⟩

/-- C15: a pad that is not flagged as fiducial leaves the working list as it
is, whatever copper layers it is on; and removing every such pad from every
device of a board leaves the data set returned by `generate` unchanged. -/
theorem C15_plain_pads_ignored :
    (∀ (g v dn pn : String) (items : List PickPlaceDataItem) (pad : BI_FootprintPad),
      pad.functionIsFiducial = false → padStep g v dn pn items pad = items) ∧
    (∀ board : Board, generate (boardWithoutPlainPads board) = generate board) := by
  constructor
  · intro g v dn pn items pad hpad
    simp [padStep, hpad]
  · intro board
    rw [generate_eq, generate_eq]
    simp only [boardWithoutPlainPads, List.flatMap_map]
    congr 1
    apply List.flatMap_congr
    intro d _
    exact deviceItems_withoutPlainPads _ d

/-- C15 at the board `boardMixed`: its devices lose three pads that are not
fiducials, and the generated data set is the same. -/
theorem C15_plain_pads_ignored_witness :
    ((boardWithoutPlainPads boardMixed).deviceInstances.map (fun d => d.pads.length)) =
        [2, 0, 1, 1] ∧
      (boardMixed.deviceInstances.map (fun d => d.pads.length)) = [3, 2, 2, 1] ∧
      generate (boardWithoutPlainPads boardMixed) = generate boardMixed :=
  ⟨by decide, by decide, C15_plain_pads_ignored.2 boardMixed⟩

/-- C16: for a device whose number of fiducial records is not exactly one, the
designators of all its records (the fiducial records and the main record, if
there is one) are pairwise distinct; in particular no renamed designator equals
the plain component name. -/
theorem C16_device_designators_nodup (locale : List String) (device : BI_Device)
    (hne : (fiducialRecords locale device).length ≠ 1) :
    ((deviceItems locale device).map (fun item => item.designator)).Nodup ∧
      ((fiducialRecords locale device).map (fun item => item.designator)).Nodup ∧
      ∀ f ∈ fiducialRecords locale device, f.designator ≠ device.componentName := by
  have hall := nodup_designators_deviceItems locale device (fun h => absurd h hne)
  refine ⟨hall, ?_, ?_⟩
  · rw [deviceItems_split, List.map_append] at hall
    exact (List.nodup_append.mp hall).1
  · intro f hf
    have hlen : 2 ≤ (fiducialItems locale device).length := by
      rw [fiducialRecords_eq, length_ensureUniqueDesignators] at hne
      have hpos : 0 < (fiducialRecords locale device).length := List.length_pos_of_mem hf
      rw [fiducialRecords_eq, length_ensureUniqueDesignators] at hpos
      omega
    rw [fiducialRecords_eq] at hf
    have hgt : (fiducialItems locale device).length > 1 := hlen
    simp only [ensureUniqueDesignators, hgt, if_true] at hf
    have hmem : f.designator ∈ (renameFrom 0 (fiducialItems locale device)).map
        (fun y => y.designator) := List.mem_map_of_mem _ hf
    rw [designator_renameFrom device.componentName 0 _ (fun y hy => (mem_fiducialItems hy).2)]
      at hmem
    obtain ⟨k, -, hk⟩ := List.mem_map.mp hmem
    rw [← hk]
    exact append_colon_ne device.componentName (toString k)

/-- C16 at the device `deviceX` with two fiducial records and a main record:
the designators `X:1`, `X:2`, `X` are pairwise distinct. -/
theorem C16_device_designators_nodup_witness :
    (deviceItems [] deviceX).map (fun item => item.designator) = ["X:1", "X:2", "X"] ∧
      ((deviceItems [] deviceX).map (fun item => item.designator)).Nodup :=
  ⟨by decide, (C16_device_designators_nodup [] deviceX (by decide)).1⟩

end BoardPickPlaceGenerator

end librepcb
